import Mathlib

/-
Verification of the announcements router
(src/backend/routers/announcements.py) of the school-management API.

The Python module exposes five HTTP handlers over two MongoDB collections:
`announcements_collection` and `teachers_collection`.  We embed the handlers
shallowly:

* a MongoDB announcement document becomes the structure `StoredDoc`;
  its `start_date` field is `Option (Option String)` so that a missing
  field (`$exists: false`), an explicit `null`, and a string value are
  distinguished, exactly as the `/active` query distinguishes them;
* the announcements collection becomes a `List StoredDoc` in natural
  (insertion) order; `find_one`/`update_one`/`delete_one` act on the first
  matching element, a determinization of MongoDB's single-document
  operations; the teachers collection becomes the `List String` of the
  usernames that have a teacher record;
* `datetime.utcnow().isoformat()` and the ObjectId generated by
  `insert_one` are environment inputs, passed as explicit parameters
  `now` / `newId`;
* `raise HTTPException(status_code, detail)` becomes returning
  `Except.error ⟨status_code, detail⟩`; mutating handlers return the
  resulting collection alongside, so an error leaving the store unchanged
  is visible in the type;
* MongoDB compares strings bytewise as UTF-8; `strLe` below is that
  comparison (bytewise UTF-8 order coincides with code-point order).
-/

/-- Bytewise lexicographic `≤` on character lists, the order MongoDB uses
for string comparisons in `$gte`/`$lte` queries and in `sort`. -/
def lexLe : List Char → List Char → Bool
  | [], _ => true
  | _ :: _, [] => false
  | a :: as, b :: bs => if a < b then true else if b < a then false else lexLe as bs

/-- String comparison as performed by MongoDB on the ISO timestamp strings. -/
def strLe (a b : String) : Bool := lexLe a.data b.data

/-- A document of the `announcements` collection.  `start_date = none` models
a document without the field, `some none` an explicit `null`, `some (some s)`
a string value; `updated_by`/`updated_at` are `none` until an update stamps
them. -/
structure StoredDoc where
  _id : String
  title : String
  message : String
  start_date : Option (Option String)
  expiration_date : String
  created_by : String
  created_at : String
  updated_by : Option String
  updated_at : Option String
deriving DecidableEq

/-- The JSON object a handler returns for one announcement: the stored
document with `_id` deleted and `id = str(_id)` added. -/
structure DocView where
  id : String
  title : String
  message : String
  start_date : Option (Option String)
  expiration_date : String
  created_by : String
  created_at : String
  updated_by : Option String
  updated_at : Option String
deriving DecidableEq

/-- `announcement["id"] = str(announcement["_id"]); del announcement["_id"]`. -/
def StoredDoc.toView (d : StoredDoc) : DocView :=
  { id := d._id, title := d.title, message := d.message,
    start_date := d.start_date, expiration_date := d.expiration_date,
    created_by := d.created_by, created_at := d.created_at,
    updated_by := d.updated_by, updated_at := d.updated_at }

/-- `raise HTTPException(status_code=..., detail=...)`. -/
structure HTTPError where
  status_code : Nat
  detail : String
deriving DecidableEq

/-- The `/active` filter: `expiration_date ≥ current_time` and
(`start_date` missing, or `null`, or `≤ current_time`). -/
def isActive (current_time : String) (d : StoredDoc) : Bool :=
  strLe current_time d.expiration_date &&
    match d.start_date with
    | none => true
    | some none => true
    | some (some s) => strLe s current_time

/-- Insert a document into a list that is sorted by `created_at`
descending, keeping it sorted. -/
def insertDesc (d : StoredDoc) : List StoredDoc → List StoredDoc
  | [] => [d]
  | e :: es => if strLe e.created_at d.created_at then d :: e :: es
               else e :: insertDesc d es

/-- `.sort("created_at", -1)`: order the result set by `created_at`
descending. -/
def sortByCreatedDesc : List StoredDoc → List StoredDoc
  | [] => []
  | d :: ds => insertDesc d (sortByCreatedDesc ds)

/-- `find_one({"_id": oid})`: first document with the given id. -/
def findOne (oid : String) (l : List StoredDoc) : Option StoredDoc :=
  l.find? (fun d => d._id = oid)

/-- `update_one({"_id": oid}, {"$set": ...})`: rewrite the first document
with the given id by `f`, leave every other document unchanged. -/
def updateOne (oid : String) (f : StoredDoc → StoredDoc) :
    List StoredDoc → List StoredDoc
  | [] => []
  | d :: ds => if d._id = oid then f d :: ds else d :: updateOne oid f ds

/-- `delete_one({"_id": oid})`: remove the first document with the given id;
also return `deleted_count`. -/
def deleteOne (oid : String) : List StoredDoc → Nat × List StoredDoc
  | [] => (0, [])
  | d :: ds =>
      if d._id = oid then (1, ds)
      else
        let r := deleteOne oid ds
        (r.1, d :: r.2)

/-- `bson.ObjectId(s)` succeeds on a 24-character hexadecimal string and
raises otherwise; we record success as `some s`. -/
def isHexChar (c : Char) : Bool :=
  c.isDigit || ('a' ≤ c && c ≤ 'f') || ('A' ≤ c && c ≤ 'F')

/-- Parse an announcement id string as an ObjectId (`none` = the
`ObjectId(...)` constructor raises). -/
def parseObjectId (s : String) : Option String :=
  if s.length = 24 && s.data.all isHexChar then some s else none

/-- Numeric value of a two-digit field. -/
def twoDigit (a b : Char) : Nat := 10 * (a.toNat - 48) + (b.toNat - 48)

/-- The `YYYY-MM-DD` date part accepted by `datetime.fromisoformat`:
four digits, dash, two digits, dash, two digits, with the month in 1..12
and the day in 1..31 (the per-month day bound of the library is
simplified to 31; no claim depends on it). -/
def validDate : List Char → Bool
  | [y1, y2, y3, y4, '-', m1, m2, '-', d1, d2] =>
      ([y1, y2, y3, y4, m1, m2, d1, d2].all Char.isDigit) &&
      decide (1 ≤ twoDigit m1 m2) && decide (twoDigit m1 m2 ≤ 12) &&
      decide (1 ≤ twoDigit d1 d2) && decide (twoDigit d1 d2 ≤ 31)
  | _ => false

/-- A time-of-day field `HH[:MM[:SS[.f…]]]` (fraction nonempty, all
digits), also the shape of an offset after its sign. -/
def validTimeCore : List Char → Bool
  | [h1, h2] => [h1, h2].all Char.isDigit && decide (twoDigit h1 h2 ≤ 23)
  | [h1, h2, ':', m1, m2] =>
      [h1, h2, m1, m2].all Char.isDigit &&
      decide (twoDigit h1 h2 ≤ 23) && decide (twoDigit m1 m2 ≤ 59)
  | [h1, h2, ':', m1, m2, ':', s1, s2] =>
      [h1, h2, m1, m2, s1, s2].all Char.isDigit &&
      decide (twoDigit h1 h2 ≤ 23) && decide (twoDigit m1 m2 ≤ 59) &&
      decide (twoDigit s1 s2 ≤ 59)
  | h1 :: h2 :: ':' :: m1 :: m2 :: ':' :: s1 :: s2 :: '.' :: frac =>
      [h1, h2, m1, m2, s1, s2].all Char.isDigit &&
      decide (twoDigit h1 h2 ≤ 23) && decide (twoDigit m1 m2 ≤ 59) &&
      decide (twoDigit s1 s2 ≤ 59) &&
      !frac.isEmpty && frac.all Char.isDigit
  | _ => false

/-- A UTC-offset sign. -/
def isSign (c : Char) : Bool := c = '+' || c = '-'

/-- Split a time section at the first offset sign: the part before the
first `+`/`-`, and the rest (which begins with that sign, or is empty). -/
def splitAtSign : List Char → List Char × List Char
  | [] => ([], [])
  | c :: cs =>
      if isSign c then ([], c :: cs)
      else
        let r := splitAtSign cs
        (c :: r.1, r.2)

/-- An offset `±HH[:MM[:SS[.f…]]]`. -/
def validOffsetPart : List Char → Bool
  | c :: rest => isSign c && validTimeCore rest
  | [] => false

/-- A time section: time of day followed by an optional offset. -/
def validTimeOpt (l : List Char) : Bool :=
  validTimeCore (splitAtSign l).1 &&
    ((splitAtSign l).2.isEmpty || validOffsetPart (splitAtSign l).2)

/-- Model of Python `datetime.fromisoformat` (3.11+ behaviour, success
only): a 10-character `YYYY-MM-DD` date alone, or that date, one
separator character (any character — the library skips index 10 without
checking it), and a nonempty time section with optional offset. -/
def fromiso (l : List Char) : Bool :=
  if l.length ≤ 10 then validDate l
  else validDate (l.take 10) && validTimeOpt (l.drop 11)

/-- Python `s.replace('Z', '+00:00')`: every `'Z'`, not only a trailing
one, becomes `+00:00`. -/
def zrepl : List Char → List Char
  | [] => []
  | c :: cs =>
      if c = 'Z' then '+' :: '0' :: '0' :: ':' :: '0' :: '0' :: zrepl cs
      else c :: zrepl cs

/-- The date validation of the handlers:
`datetime.fromisoformat(s.replace('Z', '+00:00'))` succeeds. -/
def validDateInput (s : String) : Bool := fromiso (zrepl s.data)

/-- Python truthiness of the `start_date` parameter: `None` and the empty
string are falsy. -/
def pyTruthy : Option String → Bool
  | none => false
  | some s => !(s == "")

/-- The `if start_date:` guard combined with its `try ... except`: true
iff the handler raises `Invalid start date format`. -/
def startDateInvalid (start_date : Option String) : Bool :=
  pyTruthy start_date && !(validDateInput (start_date.getD ""))

/-- GET `/announcements/active`. -/
def get_active_announcements (announcements : List StoredDoc)
    (current_time : String) : List DocView :=
  (sortByCreatedDesc (announcements.filter (isActive current_time))).map
    StoredDoc.toView

/-- GET `/announcements/all`. -/
def get_all_announcements (teachers : List String)
    (announcements : List StoredDoc) (username : String) :
    Except HTTPError (List DocView) :=
  if username ∈ teachers then
    .ok ((sortByCreatedDesc announcements).map StoredDoc.toView)
  else .error ⟨401, "Unauthorized"⟩

/-- The dict inserted by `create_announcement` (pymongo stores it with the
freshly generated `_id`). -/
def newAnnouncementDoc (title message expiration_date username : String)
    (start_date : Option String) (now newId : String) : StoredDoc :=
  { _id := newId, title := title, message := message,
    start_date := some start_date, expiration_date := expiration_date,
    created_by := username, created_at := now,
    updated_by := none, updated_at := none }

/-- POST `/announcements/`.  `now` is `datetime.utcnow().isoformat()`,
`newId` the ObjectId `insert_one` generates. -/
def create_announcement (teachers : List String)
    (announcements : List StoredDoc)
    (title message expiration_date username : String)
    (start_date : Option String) (now newId : String) :
    Except HTTPError DocView × List StoredDoc :=
  if username ∈ teachers then
    if validDateInput expiration_date then
      if startDateInvalid start_date then
        (.error ⟨400, "Invalid start date format"⟩, announcements)
      else
        let announcement :=
          newAnnouncementDoc title message expiration_date username
            start_date now newId
        (.ok announcement.toView, announcements ++ [announcement])
    else (.error ⟨400, "Invalid expiration date format"⟩, announcements)
  else (.error ⟨401, "Unauthorized"⟩, announcements)

/-- The `$set` document of `update_announcement` applied to a stored
document. -/
def applyUpdate (title message expiration_date username : String)
    (start_date : Option String) (now : String) (d : StoredDoc) :
    StoredDoc :=
  { d with
    title := title, message := message, start_date := some start_date,
    expiration_date := expiration_date,
    updated_by := some username, updated_at := some now }

/-- PUT `/announcements/{announcement_id}`.  The 500 arm models the
unhandled `TypeError` (FastAPI's Internal Server Error) the Python code
would hit if the re-read after `update_one` found nothing; it is proved
unreachable below. -/
def update_announcement (teachers : List String)
    (announcements : List StoredDoc)
    (announcement_id title message expiration_date username : String)
    (start_date : Option String) (now : String) :
    Except HTTPError DocView × List StoredDoc :=
  if username ∈ teachers then
    match parseObjectId announcement_id with
    | none => (.error ⟨400, "Invalid announcement ID"⟩, announcements)
    | some obj_id =>
        match findOne obj_id announcements with
        | none => (.error ⟨404, "Announcement not found"⟩, announcements)
        | some _ =>
            if validDateInput expiration_date then
              if startDateInvalid start_date then
                (.error ⟨400, "Invalid start date format"⟩, announcements)
              else
                let announcements2 :=
                  updateOne obj_id
                    (applyUpdate title message expiration_date username
                      start_date now) announcements
                match findOne obj_id announcements2 with
                | some updated => (.ok updated.toView, announcements2)
                | none =>
                    (.error ⟨500, "Internal Server Error"⟩, announcements2)
            else (.error ⟨400, "Invalid expiration date format"⟩,
              announcements)
  else (.error ⟨401, "Unauthorized"⟩, announcements)

/-- DELETE `/announcements/{announcement_id}`. -/
def delete_announcement (teachers : List String)
    (announcements : List StoredDoc) (announcement_id username : String) :
    Except HTTPError String × List StoredDoc :=
  if username ∈ teachers then
    match parseObjectId announcement_id with
    | none => (.error ⟨400, "Invalid announcement ID"⟩, announcements)
    | some obj_id =>
        let result := deleteOne obj_id announcements
        if result.1 = 0 then
          (.error ⟨404, "Announcement not found"⟩, announcements)
        else (.ok "Announcement deleted successfully", result.2)
  else (.error ⟨401, "Unauthorized"⟩, announcements)

/-- One comparison step of `lexLe`. -/
theorem lexLe_cons_iff {a b : Char} {as bs : List Char} :
    lexLe (a :: as) (b :: bs) = true ↔
      a < b ∨ (a = b ∧ lexLe as bs = true) := by
  show (if a < b then true else if b < a then false else lexLe as bs) = true ↔ _
  rcases lt_trichotomy a b with h | h | h
  · simp [h]
  · subst h
    simp [lt_irrefl]
  · simp [lt_asymm h, h, ne_of_gt h]

/-- `lexLe` is total. -/
theorem lexLe_total : ∀ a b : List Char, lexLe a b = true ∨ lexLe b a = true
  | [], _ => Or.inl rfl
  | _ :: _, [] => Or.inr rfl
  | a :: as, b :: bs => by
      rcases lt_trichotomy a b with h | h | h
      · exact Or.inl (lexLe_cons_iff.mpr (Or.inl h))
      · rcases lexLe_total as bs with h2 | h2
        · exact Or.inl (lexLe_cons_iff.mpr (Or.inr ⟨h, h2⟩))
        · exact Or.inr (lexLe_cons_iff.mpr (Or.inr ⟨h.symm, h2⟩))
      · exact Or.inr (lexLe_cons_iff.mpr (Or.inl h))

/-- `lexLe` is transitive. -/
theorem lexLe_trans : ∀ {a b c : List Char},
    lexLe a b = true → lexLe b c = true → lexLe a c = true
  | [], _, _, _, _ => rfl
  | _ :: _, [], _, h1, _ => by simp [lexLe] at h1
  | _ :: _, _ :: _, [], _, h2 => by simp [lexLe] at h2
  | a :: as, b :: bs, c :: cs, h1, h2 => by
      rcases lexLe_cons_iff.mp h1 with hab | ⟨hab, h1'⟩ <;>
        rcases lexLe_cons_iff.mp h2 with hbc | ⟨hbc, h2'⟩
      · exact lexLe_cons_iff.mpr (Or.inl (lt_trans hab hbc))
      · exact lexLe_cons_iff.mpr (Or.inl (hbc ▸ hab))
      · exact lexLe_cons_iff.mpr (Or.inl (hab ▸ hbc))
      · exact lexLe_cons_iff.mpr (Or.inr ⟨hab.trans hbc, lexLe_trans h1' h2'⟩)

/-- `strLe` is total. -/
theorem strLe_total (a b : String) : strLe a b = true ∨ strLe b a = true :=
  lexLe_total a.data b.data

/-- `strLe` is transitive. -/
theorem strLe_trans {a b c : String} (h1 : strLe a b = true)
    (h2 : strLe b c = true) : strLe a c = true :=
  lexLe_trans h1 h2

/-- The ordering relation the two list endpoints promise: each element's
`created_at` is at or below the previous one's. -/
def createdDescAfter (a b : StoredDoc) : Prop :=
  strLe b.created_at a.created_at = true

/-- Membership is preserved by `insertDesc`. -/
theorem mem_insertDesc {d e : StoredDoc} : ∀ {l : List StoredDoc},
    e ∈ insertDesc d l ↔ e = d ∨ e ∈ l := by
  intro l
  induction l with
  | nil => simp [insertDesc]
  | cons x xs ih =>
      by_cases h : strLe x.created_at d.created_at = true
      · simp [insertDesc, h, List.mem_cons]
      · simp only [insertDesc, if_neg h, List.mem_cons, ih]
        tauto

/-- Membership is preserved by `sortByCreatedDesc`. -/
theorem mem_sortByCreatedDesc {e : StoredDoc} : ∀ {l : List StoredDoc},
    e ∈ sortByCreatedDesc l ↔ e ∈ l := by
  intro l
  induction l with
  | nil => simp [sortByCreatedDesc]
  | cons x xs ih => simp [sortByCreatedDesc, mem_insertDesc, ih]

/-- `insertDesc` keeps a descending list descending. -/
theorem pairwise_insertDesc {d : StoredDoc} : ∀ {l : List StoredDoc},
    l.Pairwise createdDescAfter →
    (insertDesc d l).Pairwise createdDescAfter := by
  intro l
  induction l with
  | nil => intro _; simp [insertDesc, createdDescAfter]
  | cons x xs ih =>
      intro hp
      rcases List.pairwise_cons.mp hp with ⟨hx, hxs⟩
      by_cases h : strLe x.created_at d.created_at = true
      · rw [insertDesc, if_pos h]
        refine List.pairwise_cons.mpr ⟨?_, hp⟩
        intro e he
        rcases List.mem_cons.mp he with rfl | he
        · exact h
        · exact strLe_trans (hx e he) h
      · rw [insertDesc, if_neg h]
        refine List.pairwise_cons.mpr ⟨?_, ih hxs⟩
        intro e he
        rcases mem_insertDesc.mp he with rfl | he
        · rcases strLe_total x.created_at e.created_at with h2 | h2
          · exact absurd h2 h
          · exact h2
        · exact hx e he

/-- The sorted result set is descending by `created_at`. -/
theorem pairwise_sortByCreatedDesc : ∀ (l : List StoredDoc),
    (sortByCreatedDesc l).Pairwise createdDescAfter
  | [] => List.Pairwise.nil
  | d :: ds => pairwise_insertDesc (pairwise_sortByCreatedDesc ds)

/-- Two documents with the same serialized view are the same document. -/
theorem toView_inj {a b : StoredDoc} (h : a.toView = b.toView) : a = b := by
  cases a
  cases b
  simp only [StoredDoc.toView, DocView.mk.injEq] at h
  simp [StoredDoc.mk.injEq, h]

/-- The `/active` query in propositional form. -/
theorem isActive_iff {ct : String} {d : StoredDoc} :
    isActive ct d = true ↔
      strLe ct d.expiration_date = true ∧
        (d.start_date = none ∨ d.start_date = some none ∨
          ∃ s, d.start_date = some (some s) ∧ strLe s ct = true) := by
  unfold isActive
  rcases hs : d.start_date with _ | sd
  · simp [hs]
  · rcases sd with _ | s
    · simp [hs]
    · simp [hs, Bool.and_eq_true]

/-- A successfully parsed ObjectId is the input string itself, and that
string has the 24 hexadecimal characters. -/
theorem parseObjectId_some {s t : String} (h : parseObjectId s = some t) :
    t = s ∧ s.length = 24 := by
  unfold parseObjectId at h
  by_cases hc : (s.length = 24 && s.data.all isHexChar) = true
  · rw [if_pos hc] at h
    cases h
    exact ⟨rfl, of_decide_eq_true ((Bool.and_eq_true _ _).mp hc).1⟩
  · rw [if_neg hc] at h
    cases h

/-- Re-reading an id after `update_one` on that id sees the rewritten
document (for an update that does not touch `_id`). -/
theorem findOne_updateOne (oid : String) (f : StoredDoc → StoredDoc)
    (hf : ∀ d, (f d)._id = d._id) :
    ∀ l : List StoredDoc, findOne oid (updateOne oid f l) = (findOne oid l).map f
  | [] => rfl
  | d :: ds => by
      by_cases h : d._id = oid
      · rw [updateOne, if_pos h]
        unfold findOne
        rw [List.find?_cons_of_pos _ (by simp [hf d, h]),
          List.find?_cons_of_pos _ (by simp [h])]
        rfl
      · rw [updateOne, if_neg h]
        unfold findOne
        rw [List.find?_cons_of_neg _ (by simp [h]),
          List.find?_cons_of_neg _ (by simp [h])]
        exact findOne_updateOne oid f hf ds

/-- `delete_one` on an id no document carries reports `deleted_count = 0`
and leaves the collection unchanged. -/
theorem deleteOne_of_findOne_none (oid : String) :
    ∀ {l : List StoredDoc}, findOne oid l = none → deleteOne oid l = (0, l)
  | [], _ => rfl
  | d :: ds, h => by
      unfold findOne at h
      by_cases hd : d._id = oid
      · rw [List.find?_cons_of_pos _ (by simp [hd])] at h
        cases h
      · rw [List.find?_cons_of_neg _ (by simp [hd])] at h
        have ih := deleteOne_of_findOne_none oid (l := ds) h
        simp only [deleteOne, if_neg hd, ih]

/-- `delete_one` on an id some document carries removes one document:
count 1, length down by one, every other document kept, nothing added. -/
theorem deleteOne_spec (oid : String) :
    ∀ {l : List StoredDoc} {d : StoredDoc}, findOne oid l = some d →
      (deleteOne oid l).1 = 1 ∧
      l.length = (deleteOne oid l).2.length + 1 ∧
      (∀ e ∈ l, e ≠ d → e ∈ (deleteOne oid l).2) ∧
      (∀ e ∈ (deleteOne oid l).2, e ∈ l)
  | a :: as, d, h => by
      unfold findOne at h
      by_cases ha : a._id = oid
      · rw [List.find?_cons_of_pos _ (by simp [ha])] at h
        cases h
        refine ⟨by simp [deleteOne, ha], by simp [deleteOne, ha], ?_, ?_⟩
        · intro e he hne
          simp only [deleteOne, if_pos ha]
          rcases List.mem_cons.mp he with rfl | he
          · exact absurd rfl hne
          · exact he
        · intro e he
          simp only [deleteOne, if_pos ha] at he
          exact List.mem_cons_of_mem _ he
      · rw [List.find?_cons_of_neg _ (by simp [ha])] at h
        have ih := deleteOne_spec oid (l := as) h
        simp only [deleteOne, if_neg ha]
        refine ⟨ih.1, ?_, ?_, ?_⟩
        · simpa [Nat.succ_inj] using ih.2.1
        · intro e he hne
          rcases List.mem_cons.mp he with rfl | he
          · exact List.mem_cons_self _ _
          · exact List.mem_cons_of_mem _ (ih.2.2.1 e he hne)
        · intro e he
          rcases List.mem_cons.mp he with rfl | he
          · exact List.mem_cons_self _ _
          · exact List.mem_cons_of_mem _ (ih.2.2.2 e he)

/-- When `_id`s are unique (the MongoDB `_id` index invariant), the
deleted id is gone afterwards. -/
theorem findOne_deleteOne_none (oid : String) :
    ∀ {l : List StoredDoc}, (l.map StoredDoc._id).Nodup →
      ∀ {d : StoredDoc}, findOne oid l = some d →
        findOne oid (deleteOne oid l).2 = none
  | a :: as, hnd, d, h => by
      rcases List.nodup_cons.mp hnd with ⟨hnotin, hnd'⟩
      unfold findOne at h
      by_cases ha : a._id = oid
      · rw [List.find?_cons_of_pos _ (by simp [ha])] at h
        cases h
        simp only [deleteOne, if_pos ha]
        refine List.find?_eq_none.mpr ?_
        intro x hx
        simp only [decide_eq_true_eq]
        intro hxid
        exact hnotin (List.mem_map.mpr ⟨x, hx, hxid.trans ha.symm⟩)
      · rw [List.find?_cons_of_neg _ (by simp [ha])] at h
        have ih := findOne_deleteOne_none oid (l := as) hnd' h
        simp only [deleteOne, if_neg ha]
        unfold findOne
        rw [List.find?_cons_of_neg _ (by simp [ha])]
        exact ih

/-- A `start_date` that is absent, or present, nonempty and parsing, never
triggers `Invalid start date format`. -/
theorem startDateInvalid_false {sd : Option String}
    (h : ∀ s, sd = some s → s ≠ "" → validDateInput s = true) :
    startDateInvalid sd = false := by
  rcases sd with _ | s
  · rfl
  · by_cases hs : s = ""
    · subst hs
      rfl
    · simp [startDateInvalid, pyTruthy, h s rfl hs]

/-- The success path of POST `/announcements/`. -/
theorem create_success {teachers : List String} {A : List StoredDoc}
    {ti m ex u : String} {sd : Option String} {now newId : String}
    (hu : u ∈ teachers) (hex : validDateInput ex = true)
    (hsd : startDateInvalid sd = false) :
    create_announcement teachers A ti m ex u sd now newId =
      (.ok (newAnnouncementDoc ti m ex u sd now newId).toView,
        A ++ [newAnnouncementDoc ti m ex u sd now newId]) := by
  unfold create_announcement
  rw [if_pos hu, if_pos hex, if_neg (by simp [hsd])]

/-- The success path of PUT `/announcements/{id}`: the first document with
the parsed id is rewritten by the `$set` data, and its re-read is what the
handler returns. -/
theorem update_success {teachers : List String} {A : List StoredDoc}
    {id ti m ex u : String} {sd : Option String} {now : String}
    {oid : String} {existing : StoredDoc}
    (hu : u ∈ teachers) (hoid : parseObjectId id = some oid)
    (hfound : findOne oid A = some existing)
    (hex : validDateInput ex = true) (hsd : startDateInvalid sd = false) :
    update_announcement teachers A id ti m ex u sd now =
      (.ok (applyUpdate ti m ex u sd now existing).toView,
        updateOne oid (applyUpdate ti m ex u sd now) A) := by
  have h2 : findOne oid (updateOne oid (applyUpdate ti m ex u sd now) A) =
      some (applyUpdate ti m ex u sd now existing) := by
    rw [findOne_updateOne oid (applyUpdate ti m ex u sd now) (fun d => rfl) A,
      hfound]
    rfl
  simp only [update_announcement, if_pos hu, hoid, hfound, if_pos hex, hsd,
    Bool.false_eq_true, if_false, h2]

/-- GET `/all` answers 401 exactly for usernames without a teacher record. -/
theorem get_all_401_iff {teachers : List String} {A : List StoredDoc}
    {u : String} :
    get_all_announcements teachers A u = .error ⟨401, "Unauthorized"⟩ ↔
      u ∉ teachers := by
  by_cases h : u ∈ teachers
  · simp [get_all_announcements, h]
  · simp [get_all_announcements, h]

/-- POST `/` answers 401 exactly for usernames without a teacher record. -/
theorem create_401_iff {teachers : List String} {A : List StoredDoc}
    {ti m ex u : String} {sd : Option String} {now newId : String} :
    (create_announcement teachers A ti m ex u sd now newId).1 =
        .error ⟨401, "Unauthorized"⟩ ↔ u ∉ teachers := by
  by_cases h : u ∈ teachers
  · simp only [create_announcement, if_pos h]
    constructor
    · intro hc
      exfalso
      split_ifs at hc <;> simp_all
    · intro hc
      exact absurd h hc
  · simp [create_announcement, h]

/-- PUT `/{id}` answers 401 exactly for usernames without a teacher
record. -/
theorem update_401_iff {teachers : List String} {A : List StoredDoc}
    {id ti m ex u : String} {sd : Option String} {now : String} :
    (update_announcement teachers A id ti m ex u sd now).1 =
        .error ⟨401, "Unauthorized"⟩ ↔ u ∉ teachers := by
  by_cases h : u ∈ teachers
  · simp only [update_announcement, if_pos h]
    constructor
    · intro hc
      exfalso
      split at hc
      · simp_all
      · split at hc
        · simp_all
        · split_ifs at hc
          · simp_all
          · split at hc <;> simp_all
          · simp_all
    · intro hc
      exact absurd h hc
  · simp [update_announcement, h]

/-- DELETE `/{id}` answers 401 exactly for usernames without a teacher
record. -/
theorem delete_401_iff {teachers : List String} {A : List StoredDoc}
    {id u : String} :
    (delete_announcement teachers A id u).1 =
        .error ⟨401, "Unauthorized"⟩ ↔ u ∉ teachers := by
  by_cases h : u ∈ teachers
  · simp only [delete_announcement, if_pos h]
    constructor
    · intro hc
      exfalso
      split at hc
      · simp_all
      · split_ifs at hc <;> simp_all
    · intro hc
      exact absurd h hc
  · simp [delete_announcement, h]

/-- `replace` walks past a prefix free of `'Z'`. -/
theorem zrepl_append_of_noZ : ∀ {l m : List Char}, (∀ c ∈ l, c ≠ 'Z') →
    zrepl (l ++ m) = l ++ zrepl m
  | [], _, _ => rfl
  | c :: cs, m, h => by
      have hc : c ≠ 'Z' := h c (List.mem_cons_self _ _)
      have ih := zrepl_append_of_noZ (l := cs) (m := m)
        (fun x hx => h x (List.mem_cons_of_mem _ hx))
      simp [zrepl, hc, ih]

/-- A sign-free time section is all time-of-day, no offset. -/
theorem splitAtSign_of_no_sign : ∀ {l : List Char},
    (∀ c ∈ l, isSign c = false) → splitAtSign l = (l, [])
  | [], _ => rfl
  | c :: cs, h => by
      have hc := h c (List.mem_cons_self _ _)
      have ih := splitAtSign_of_no_sign (l := cs)
        (fun x hx => h x (List.mem_cons_of_mem _ hx))
      simp [splitAtSign, hc, ih]

/-- Appending an offset to a sign-free time section splits at the
offset's sign. -/
theorem splitAtSign_append_sign : ∀ {l r : List Char} {s : Char},
    (∀ c ∈ l, isSign c = false) → isSign s = true →
    splitAtSign (l ++ s :: r) = (l, s :: r)
  | [], _, _, _, hs => by simp [splitAtSign, hs]
  | c :: cs, r, s, h, hs => by
      have hc := h c (List.mem_cons_self _ _)
      have ih := splitAtSign_append_sign (l := cs) (r := r) (s := s)
        (fun x hx => h x (List.mem_cons_of_mem _ hx)) hs
      simp [splitAtSign, hc, ih]

/-- Only 10-character strings pass the date-shape check. -/
theorem validDate_length {l : List Char} (h : validDate l = true) :
    l.length = 10 := by
  unfold validDate at h
  split at h
  · simp_all
  · cases h

/-- A parsing timestamp without offset still parses with `+00:00`
appended. -/
theorem fromiso_append_p00 {l : List Char} (hv : fromiso l = true)
    (hns : ∀ c ∈ l.drop 11, isSign c = false) :
    fromiso (l ++ ['+', '0', '0', ':', '0', '0']) = true := by
  by_cases hlen : l.length ≤ 10
  · rw [fromiso, if_pos hlen] at hv
    have h10 : l.length = 10 := validDate_length hv
    have hlen2 : ¬ (l ++ ['+', '0', '0', ':', '0', '0']).length ≤ 10 := by
      simp [List.length_append, h10]
    rw [fromiso, if_neg hlen2]
    have htake : (l ++ ['+', '0', '0', ':', '0', '0']).take 10 = l := by
      rw [← h10]
      exact List.take_left l _
    have hdrop : (l ++ ['+', '0', '0', ':', '0', '0']).drop 11 =
        ['0', '0', ':', '0', '0'] := by
      rw [show 11 = l.length + 1 by rw [h10], List.drop_append]
      rfl
    rw [htake, hdrop, hv]
    decide
  · rw [fromiso, if_neg hlen] at hv
    rcases (Bool.and_eq_true _ _).mp hv with ⟨hd, ht⟩
    have hlen2 : ¬ (l ++ ['+', '0', '0', ':', '0', '0']).length ≤ 10 := by
      simp only [List.length_append]
      omega
    rw [fromiso, if_neg hlen2]
    have htake : (l ++ ['+', '0', '0', ':', '0', '0']).take 10 = l.take 10 :=
      List.take_append_of_le_length (by omega)
    have hdrop : (l ++ ['+', '0', '0', ':', '0', '0']).drop 11 =
        l.drop 11 ++ ['+', '0', '0', ':', '0', '0'] :=
      List.drop_append_of_le_length (by omega)
    rw [htake, hdrop, hd]
    have hcore : validTimeCore (l.drop 11) = true := by
      unfold validTimeOpt at ht
      rw [splitAtSign_of_no_sign hns] at ht
      simpa using ht
    have hsplit : splitAtSign (l.drop 11 ++ ['+', '0', '0', ':', '0', '0']) =
        (l.drop 11, ['+', '0', '0', ':', '0', '0']) :=
      splitAtSign_append_sign hns rfl
    unfold validTimeOpt
    rw [hsplit]
    simp only [hcore]
    decide

/-- A stored announcement used to instantiate the theorems below. -/
def exDoc1 : StoredDoc :=
  { _id := "507f1f77bcf86cd799439011", title := "Exam",
    message := "Final exam Friday", start_date := some none,
    expiration_date := "2099-01-01T00:00:00", created_by := "teacher1",
    created_at := "2024-01-02T00:00:00", updated_by := none,
    updated_at := none }

/-- A second stored announcement, created earlier than `exDoc1`. -/
def exDoc2 : StoredDoc :=
  { _id := "507f1f77bcf86cd799439012", title := "Picnic",
    message := "School picnic", start_date := none,
    expiration_date := "2099-06-01T00:00:00", created_by := "teacher1",
    created_at := "2024-01-01T00:00:00", updated_by := none,
    updated_at := none }

/-- C1: a record's view appears in list-active exactly when the record is
stored, its `expiration_date` is at or after the current time, and its
`start_date` is absent, null, or at or before the current time; so records
with `expiration_date < now` are excluded, records with `start_date > now`
are excluded even when `expiration_date ≥ now`, and a record with no
`start_date` and `expiration_date ≥ now` is included. -/
theorem C1_list_active_iff (A : List StoredDoc) (current_time : String)
    (d : StoredDoc) :
    d.toView ∈ get_active_announcements A current_time ↔
      d ∈ A ∧ strLe current_time d.expiration_date = true ∧
        (d.start_date = none ∨ d.start_date = some none ∨
          ∃ s, d.start_date = some (some s) ∧ strLe s current_time = true) := by
  unfold get_active_announcements
  rw [List.mem_map]
  constructor
  · rintro ⟨a, ha, hv⟩
    cases toView_inj hv
    rcases List.mem_filter.mp (mem_sortByCreatedDesc.mp ha) with ⟨hmem, hact⟩
    exact ⟨hmem, isActive_iff.mp hact⟩
  · rintro ⟨hmem, hcond⟩
    exact ⟨d,
      mem_sortByCreatedDesc.mpr (List.mem_filter.mpr ⟨hmem, isActive_iff.mpr hcond⟩),
      rfl⟩

/-- C2 counterexample: a malformed id on update and delete yields 400
`Invalid announcement ID`, not the 404 NotFound class; a well-formed but
absent id yields 404, so the two are distinct error classes. -/
theorem C2_counterexample :
    parseObjectId "not-an-objectid" = none ∧
    update_announcement ["teacher1"] [] "not-an-objectid" "T" "M"
        "2099-01-01" "teacher1" none "2024-01-01T00:00:00" =
      (.error ⟨400, "Invalid announcement ID"⟩, []) ∧
    delete_announcement ["teacher1"] [] "not-an-objectid" "teacher1" =
      (.error ⟨400, "Invalid announcement ID"⟩, []) ∧
    delete_announcement ["teacher1"] [] "507f1f77bcf86cd799439011"
        "teacher1" =
      (.error ⟨404, "Announcement not found"⟩, []) ∧
    (400 : Nat) ≠ 404 :=
  ⟨rfl, rfl, rfl, rfl, by decide⟩

/-- C2 (amended): for update and delete by an existing teacher, an id that
is not convertible to an ObjectId fails with BadRequest (400,
`Invalid announcement ID`) and leaves the store unchanged — a distinct
error class from the NotFound (404) used when a well-formed id matches no
record. -/
theorem C2_malformed_id_bad_request {teachers : List String}
    {A : List StoredDoc} {id ti m ex u : String} {sd : Option String}
    {now : String} (hu : u ∈ teachers) (hbad : parseObjectId id = none) :
    update_announcement teachers A id ti m ex u sd now =
      (.error ⟨400, "Invalid announcement ID"⟩, A) ∧
    delete_announcement teachers A id u =
      (.error ⟨400, "Invalid announcement ID"⟩, A) ∧
    (∀ id2 oid2, parseObjectId id2 = some oid2 → findOne oid2 A = none →
      update_announcement teachers A id2 ti m ex u sd now =
        (.error ⟨404, "Announcement not found"⟩, A) ∧
      delete_announcement teachers A id2 u =
        (.error ⟨404, "Announcement not found"⟩, A)) := by
  refine ⟨?_, ?_, ?_⟩
  · simp [update_announcement, hu, hbad]
  · simp [delete_announcement, hu, hbad]
  · intro id2 oid2 hid2 hnone
    constructor
    · simp [update_announcement, hu, hid2, hnone]
    · simp [delete_announcement, hu, hid2,
        deleteOne_of_findOne_none oid2 hnone]

/-- C2 witness: the amended statement at concrete inputs. -/
theorem C2_witness :
    update_announcement ["teacher1"] [exDoc1] "zzz" "T" "M" "2099-01-01"
        "teacher1" none "2024-01-03T00:00:00" =
      (.error ⟨400, "Invalid announcement ID"⟩, [exDoc1]) ∧
    delete_announcement ["teacher1"] [exDoc1] "zzz" "teacher1" =
      (.error ⟨400, "Invalid announcement ID"⟩, [exDoc1]) ∧
    delete_announcement ["teacher1"] [exDoc1] "507f1f77bcf86cd799439099"
        "teacher1" =
      (.error ⟨404, "Announcement not found"⟩, [exDoc1]) := by
  have h := @C2_malformed_id_bad_request ["teacher1"] [exDoc1] "zzz" "T"
    "M" "2099-01-01" "teacher1" none "2024-01-03T00:00:00" (by decide)
    (by decide)
  exact ⟨h.1, h.2.1,
    (h.2.2 "507f1f77bcf86cd799439099" "507f1f77bcf86cd799439099"
      (by decide) (by decide)).2⟩

/-- C3: every one of the four authenticated operations answers 401
`Unauthorized` exactly when the username has no teacher record — the same
existence check for all four — and an unauthorized create, update or
delete leaves the store unchanged. -/
theorem C3_auth_check (teachers : List String) (A : List StoredDoc)
    (ti m ex u : String) (sd : Option String) (now newId id : String) :
    (get_all_announcements teachers A u = .error ⟨401, "Unauthorized"⟩ ↔
      u ∉ teachers) ∧
    ((create_announcement teachers A ti m ex u sd now newId).1 =
        .error ⟨401, "Unauthorized"⟩ ↔ u ∉ teachers) ∧
    ((update_announcement teachers A id ti m ex u sd now).1 =
        .error ⟨401, "Unauthorized"⟩ ↔ u ∉ teachers) ∧
    ((delete_announcement teachers A id u).1 =
        .error ⟨401, "Unauthorized"⟩ ↔ u ∉ teachers) ∧
    (u ∉ teachers →
      (create_announcement teachers A ti m ex u sd now newId).2 = A ∧
      (update_announcement teachers A id ti m ex u sd now).2 = A ∧
      (delete_announcement teachers A id u).2 = A) :=
  ⟨get_all_401_iff, create_401_iff, update_401_iff, delete_401_iff,
    fun h => by
      simp [create_announcement, update_announcement, delete_announcement, h]⟩

/-- C3 witness: the authorization check at concrete inputs. -/
theorem C3_witness :
    get_all_announcements ["teacher1"] [exDoc1] "eve" =
      .error ⟨401, "Unauthorized"⟩ ∧
    (create_announcement ["teacher1"] [exDoc1] "T" "M" "2099-01-01" "eve"
      none "2024-01-03T00:00:00" "507f1f77bcf86cd799439012").2 = [exDoc1] := by
  have h := C3_auth_check ["teacher1"] [exDoc1] "T" "M" "2099-01-01" "eve"
    none "2024-01-03T00:00:00" "507f1f77bcf86cd799439012"
    "507f1f77bcf86cd799439011"
  exact ⟨h.1.mpr (by decide), (h.2.2.2.2 (by decide)).1⟩

/-- C4 counterexample: with an unknown username the unparsable
expiration_date yields 401, not BadRequest; and a supplied empty-string
start_date does not parse yet create succeeds and persists. -/
theorem C4_counterexample :
    validDateInput "not-a-date" = false ∧
    create_announcement [] [] "T" "M" "not-a-date" "eve" none
        "2024-01-01T00:00:00" "507f1f77bcf86cd799439011" =
      (.error ⟨401, "Unauthorized"⟩, []) ∧
    validDateInput "" = false ∧
    create_announcement ["teacher1"] [] "T" "M" "2099-01-01T00:00:00Z"
        "teacher1" (some "") "2024-01-01T00:00:00"
        "507f1f77bcf86cd799439011" =
      (.ok (newAnnouncementDoc "T" "M" "2099-01-01T00:00:00Z" "teacher1"
          (some "") "2024-01-01T00:00:00"
          "507f1f77bcf86cd799439011").toView,
        [newAnnouncementDoc "T" "M" "2099-01-01T00:00:00Z" "teacher1"
          (some "") "2024-01-01T00:00:00" "507f1f77bcf86cd799439011"]) :=
  ⟨rfl, rfl, rfl, rfl⟩

/-- C4 (amended): for every create call by an existing teacher, if
expiration_date does not parse after Z-normalization, or a supplied
non-empty start_date does not parse, create fails with BadRequest (400)
and the store is unchanged. -/
theorem C4_invalid_dates_reject {teachers : List String}
    {A : List StoredDoc} {ti m ex u : String} {sd : Option String}
    {now newId : String} (hu : u ∈ teachers)
    (hbad : validDateInput ex = false ∨
      ∃ s, sd = some s ∧ s ≠ "" ∧ validDateInput s = false) :
    ((create_announcement teachers A ti m ex u sd now newId).1 =
        .error ⟨400, "Invalid expiration date format"⟩ ∨
      (create_announcement teachers A ti m ex u sd now newId).1 =
        .error ⟨400, "Invalid start date format"⟩) ∧
    (create_announcement teachers A ti m ex u sd now newId).2 = A := by
  rcases hbad with hbad | ⟨s, rfl, hne, hs⟩
  · constructor
    · left
      simp [create_announcement, hu, hbad]
    · simp [create_announcement, hu, hbad]
  · by_cases hex : validDateInput ex = true
    · have hsdi : startDateInvalid (some s) = true := by
        simp [startDateInvalid, pyTruthy, hne, hs]
      constructor
      · right
        simp [create_announcement, hu, hex, hsdi]
      · simp [create_announcement, hu, hex, hsdi]
    · have hex' : validDateInput ex = false := by
        cases hvx : validDateInput ex
        · rfl
        · exact absurd hvx hex
      constructor
      · left
        simp [create_announcement, hu, hex']
      · simp [create_announcement, hu, hex']

/-- C4 witness: the amended statement at a concrete input. -/
theorem C4_witness :
    ((create_announcement ["teacher1"] [exDoc1] "T" "M" "not-a-date"
        "teacher1" none "2024-01-03T00:00:00"
        "507f1f77bcf86cd799439012").1 =
      .error ⟨400, "Invalid expiration date format"⟩ ∨
    (create_announcement ["teacher1"] [exDoc1] "T" "M" "not-a-date"
        "teacher1" none "2024-01-03T00:00:00"
        "507f1f77bcf86cd799439012").1 =
      .error ⟨400, "Invalid start date format"⟩) ∧
    (create_announcement ["teacher1"] [exDoc1] "T" "M" "not-a-date"
        "teacher1" none "2024-01-03T00:00:00"
        "507f1f77bcf86cd799439012").2 = [exDoc1] :=
  C4_invalid_dates_reject (by decide) (Or.inl rfl)

/-- C5: a successful create by an existing teacher returns exactly the
view of the one document appended to the store, whose id is the freshly
generated non-empty ObjectId, whose `created_by` is the calling username,
whose `created_at` is the current time, and whose `start_date` is null
when none was supplied. -/
theorem C5_create_success {teachers : List String} {A : List StoredDoc}
    {ti m ex u : String} {sd : Option String} {now newId : String}
    (hu : u ∈ teachers) (hex : validDateInput ex = true)
    (hsd : ∀ s, sd = some s → s ≠ "" → validDateInput s = true)
    (hid : parseObjectId newId = some newId) :
    create_announcement teachers A ti m ex u sd now newId =
      (.ok (newAnnouncementDoc ti m ex u sd now newId).toView,
        A ++ [newAnnouncementDoc ti m ex u sd now newId]) ∧
    (newAnnouncementDoc ti m ex u sd now newId).toView.id = newId ∧
    newId ≠ "" ∧
    (newAnnouncementDoc ti m ex u sd now newId).toView.created_by = u ∧
    (newAnnouncementDoc ti m ex u sd now newId).toView.created_at = now ∧
    (sd = none →
      (newAnnouncementDoc ti m ex u sd now newId).toView.start_date =
        some none) := by
  refine ⟨create_success hu hex (startDateInvalid_false hsd), rfl, ?_, rfl,
    rfl, ?_⟩
  · have h24 := (parseObjectId_some hid).2
    intro h0
    rw [h0] at h24
    simp at h24
  · rintro rfl
    rfl

/-- C5 witness: the spec's own example create call. -/
theorem C5_witness :
    create_announcement ["teacher1"] [] "Exam" "Final exam Friday"
        "2099-01-01T00:00:00Z" "teacher1" none "2024-01-01T00:00:00"
        "507f1f77bcf86cd799439011" =
      (.ok (newAnnouncementDoc "Exam" "Final exam Friday"
          "2099-01-01T00:00:00Z" "teacher1" none "2024-01-01T00:00:00"
          "507f1f77bcf86cd799439011").toView,
        [newAnnouncementDoc "Exam" "Final exam Friday"
          "2099-01-01T00:00:00Z" "teacher1" none "2024-01-01T00:00:00"
          "507f1f77bcf86cd799439011"]) ∧
    "507f1f77bcf86cd799439011" ≠ "" := by
  have h := @C5_create_success ["teacher1"] [] "Exam" "Final exam Friday"
    "2099-01-01T00:00:00Z" "teacher1" none "2024-01-01T00:00:00"
    "507f1f77bcf86cd799439011" (by decide) (by decide)
    (fun s h => nomatch h) (by decide)
  exact ⟨h.1, h.2.2.1⟩

/-- C6: a successful update stores, at the updated id, exactly the
existing record with title, message, start_date and expiration_date
replaced by the supplied values and `updated_by`/`updated_at` stamped,
while `_id`, `created_by` and `created_at` are unchanged, and returns the
view of that post-update record. -/
theorem C6_update_replaces {teachers : List String} {A : List StoredDoc}
    {id ti m ex u : String} {sd : Option String} {now oid : String}
    {existing : StoredDoc} (hu : u ∈ teachers)
    (hoid : parseObjectId id = some oid)
    (hfound : findOne oid A = some existing)
    (hex : validDateInput ex = true)
    (hsd : ∀ s, sd = some s → s ≠ "" → validDateInput s = true) :
    update_announcement teachers A id ti m ex u sd now =
      (.ok (applyUpdate ti m ex u sd now existing).toView,
        updateOne oid (applyUpdate ti m ex u sd now) A) ∧
    findOne oid (updateOne oid (applyUpdate ti m ex u sd now) A) =
      some (applyUpdate ti m ex u sd now existing) ∧
    (applyUpdate ti m ex u sd now existing).title = ti ∧
    (applyUpdate ti m ex u sd now existing).message = m ∧
    (applyUpdate ti m ex u sd now existing).start_date = some sd ∧
    (applyUpdate ti m ex u sd now existing).expiration_date = ex ∧
    (applyUpdate ti m ex u sd now existing).updated_by = some u ∧
    (applyUpdate ti m ex u sd now existing).updated_at = some now ∧
    (applyUpdate ti m ex u sd now existing).created_by =
      existing.created_by ∧
    (applyUpdate ti m ex u sd now existing).created_at =
      existing.created_at ∧
    (applyUpdate ti m ex u sd now existing)._id = existing._id := by
  refine ⟨update_success hu hoid hfound hex (startDateInvalid_false hsd),
    ?_, rfl, rfl, rfl, rfl, rfl, rfl, rfl, rfl, rfl⟩
  rw [findOne_updateOne oid (applyUpdate ti m ex u sd now) (fun d => rfl) A,
    hfound]
  rfl

/-- C6 witness: an update of `exDoc1` at concrete inputs. -/
theorem C6_witness :
    update_announcement ["teacher1"] [exDoc1, exDoc2]
        "507f1f77bcf86cd799439011" "New title" "New message"
        "2099-02-01T00:00:00" "teacher1" (some "2024-06-01T00:00:00")
        "2024-01-04T00:00:00" =
      (.ok (applyUpdate "New title" "New message" "2099-02-01T00:00:00"
          "teacher1" (some "2024-06-01T00:00:00") "2024-01-04T00:00:00"
          exDoc1).toView,
        [applyUpdate "New title" "New message" "2099-02-01T00:00:00"
          "teacher1" (some "2024-06-01T00:00:00") "2024-01-04T00:00:00"
          exDoc1, exDoc2]) ∧
    (applyUpdate "New title" "New message" "2099-02-01T00:00:00" "teacher1"
        (some "2024-06-01T00:00:00") "2024-01-04T00:00:00"
        exDoc1).created_by = exDoc1.created_by := by
  have h := @C6_update_replaces ["teacher1"] [exDoc1, exDoc2]
    "507f1f77bcf86cd799439011" "New title" "New message"
    "2099-02-01T00:00:00" "teacher1" (some "2024-06-01T00:00:00")
    "2024-01-04T00:00:00" "507f1f77bcf86cd799439011" exDoc1 (by decide)
    (by decide) (by decide)
    (by decide) (fun s hs hne => by cases hs; decide)
  exact ⟨h.1, h.2.2.2.2.2.2.2.2.1⟩

/-- The relation both list endpoints' outputs satisfy: each view's
`created_at` is at or below its predecessor's. -/
def viewDescAfter (a b : DocView) : Prop :=
  strLe b.created_at a.created_at = true

/-- C7: list-active always, and list-all whenever it succeeds, return
their result ordered by `created_at` descending. -/
theorem C7_sorted (A : List StoredDoc) (current_time : String)
    (teachers : List String) (username : String) :
    (get_active_announcements A current_time).Pairwise viewDescAfter ∧
    ∀ out, get_all_announcements teachers A username = .ok out →
      out.Pairwise viewDescAfter := by
  constructor
  · exact List.Pairwise.map _ (fun a b h => h)
      (pairwise_sortByCreatedDesc (A.filter (isActive current_time)))
  · intro out hout
    unfold get_all_announcements at hout
    split_ifs at hout
    cases hout
    exact List.Pairwise.map _ (fun a b h => h)
      (pairwise_sortByCreatedDesc A)

/-- C7 witness: the sorted outputs at concrete inputs. -/
theorem C7_witness :
    ([exDoc1.toView, exDoc2.toView] : List DocView).Pairwise
      viewDescAfter := by
  have h := C7_sorted [exDoc2, exDoc1] "2024-02-01T00:00:00" ["teacher1"]
    "teacher1"
  exact h.2 [exDoc1.toView, exDoc2.toView] rfl

/-- C8: delete by an existing teacher on a well-formed id carried by a
stored record (ids unique, the `_id` index invariant) removes exactly that
record — count down by one, that record gone, every other record kept —
returns the confirmation message, and a second delete of the same id
answers 404 NotFound. -/
theorem C8_delete_removes {teachers : List String} {A : List StoredDoc}
    {id u oid : String} {d : StoredDoc} (hu : u ∈ teachers)
    (hoid : parseObjectId id = some oid)
    (hnd : (A.map StoredDoc._id).Nodup)
    (hfound : findOne oid A = some d) :
    delete_announcement teachers A id u =
      (.ok "Announcement deleted successfully", (deleteOne oid A).2) ∧
    d ∈ A ∧
    A.length = (deleteOne oid A).2.length + 1 ∧
    d ∉ (deleteOne oid A).2 ∧
    (∀ e ∈ A, e ≠ d → e ∈ (deleteOne oid A).2) ∧
    (∀ e ∈ (deleteOne oid A).2, e ∈ A) ∧
    delete_announcement teachers (deleteOne oid A).2 id u =
      (.error ⟨404, "Announcement not found"⟩, (deleteOne oid A).2) := by
  have hspec := deleteOne_spec oid hfound
  have hafter : findOne oid (deleteOne oid A).2 = none :=
    findOne_deleteOne_none oid hnd hfound
  refine ⟨?_, List.mem_of_find?_eq_some hfound, hspec.2.1, ?_,
    hspec.2.2.1, hspec.2.2.2, ?_⟩
  · simp [delete_announcement, hu, hoid, hspec.1]
  · intro hmem
    have hid := List.find?_some hfound
    exact (List.find?_eq_none.mp hafter) d hmem hid
  · simp [delete_announcement, hu, hoid,
      deleteOne_of_findOne_none oid hafter]

/-- C8 witness: deleting `exDoc1` and then deleting it again. -/
theorem C8_witness :
    delete_announcement ["teacher1"] [exDoc1, exDoc2]
        "507f1f77bcf86cd799439011" "teacher1" =
      (.ok "Announcement deleted successfully", [exDoc2]) ∧
    delete_announcement ["teacher1"] [exDoc2]
        "507f1f77bcf86cd799439011" "teacher1" =
      (.error ⟨404, "Announcement not found"⟩, [exDoc2]) := by
  have h := @C8_delete_removes ["teacher1"] [exDoc1, exDoc2]
    "507f1f77bcf86cd799439011" "teacher1" "507f1f77bcf86cd799439011"
    exDoc1 (by decide) (by decide) (by decide) (by decide)
  exact ⟨h.1, h.2.2.2.2.2.2⟩

/-- C9 counterexample: `"2099-01-01T00:00:00+05:00Z"` has a trailing
`'Z'` whose removal leaves a parsing ISO timestamp, yet the validation
rejects it — `replace` also mangles strings whose offset precedes the
`'Z'` — so create answers 400 for it. -/
theorem C9_counterexample :
    fromiso ("2099-01-01T00:00:00+05:00").data = true ∧
    "2099-01-01T00:00:00+05:00Z" = "2099-01-01T00:00:00+05:00" ++ "Z" ∧
    validDateInput "2099-01-01T00:00:00+05:00Z" = false ∧
    (create_announcement ["teacher1"] [] "T" "M"
        "2099-01-01T00:00:00+05:00Z" "teacher1" none
        "2024-01-01T00:00:00" "507f1f77bcf86cd799439011").1 =
      .error ⟨400, "Invalid expiration date format"⟩ :=
  ⟨rfl, rfl, rfl, rfl⟩

/-- C9 (amended): for every timestamp string whose trailing `"Z"`, once
normalized away, leaves a valid ISO-8601 timestamp that contains no other
`'Z'` and carries no UTC offset, the date validation of create and update
accepts it. -/
theorem C9_trailing_Z {t : String} (hvalid : fromiso t.data = true)
    (hnoZ : ∀ c ∈ t.data, c ≠ 'Z')
    (hnoSign : ∀ c ∈ t.data.drop 11, isSign c = false) :
    validDateInput (t ++ "Z") = true := by
  unfold validDateInput
  rw [String.data_append, zrepl_append_of_noZ hnoZ]
  exact fromiso_append_p00 hvalid hnoSign

/-- C9 witness: the amended statement at a concrete timestamp. -/
theorem C9_witness : validDateInput ("2099-01-01T00:00:00" ++ "Z") = true :=
  C9_trailing_Z (by decide) (by decide) (by decide)

/-- C10: an empty-string `start_date` is falsy, so its validation is
skipped although the empty string does not parse; create and update
succeed and persist `start_date = ""` (not null). -/
theorem C10_empty_start_date {teachers : List String} {A : List StoredDoc}
    {ti m ex u now newId id oid : String} {existing : StoredDoc}
    (hu : u ∈ teachers) (hex : validDateInput ex = true)
    (hoid : parseObjectId id = some oid)
    (hfound : findOne oid A = some existing) :
    validDateInput "" = false ∧
    startDateInvalid (some "") = false ∧
    create_announcement teachers A ti m ex u (some "") now newId =
      (.ok (newAnnouncementDoc ti m ex u (some "") now newId).toView,
        A ++ [newAnnouncementDoc ti m ex u (some "") now newId]) ∧
    (newAnnouncementDoc ti m ex u (some "") now newId).start_date =
      some (some "") ∧
    update_announcement teachers A id ti m ex u (some "") now =
      (.ok (applyUpdate ti m ex u (some "") now existing).toView,
        updateOne oid (applyUpdate ti m ex u (some "") now) A) ∧
    (applyUpdate ti m ex u (some "") now existing).start_date =
      some (some "") :=
  ⟨rfl, rfl, create_success hu hex rfl, rfl,
    update_success hu hoid hfound hex rfl, rfl⟩

/-- C10 witness: empty-string start_date on a concrete create and update. -/
theorem C10_witness :
    create_announcement ["teacher1"] [exDoc1] "T" "M"
        "2099-01-01T00:00:00Z" "teacher1" (some "") "2024-01-03T00:00:00"
        "507f1f77bcf86cd799439013" =
      (.ok (newAnnouncementDoc "T" "M" "2099-01-01T00:00:00Z" "teacher1"
          (some "") "2024-01-03T00:00:00"
          "507f1f77bcf86cd799439013").toView,
        [exDoc1, newAnnouncementDoc "T" "M" "2099-01-01T00:00:00Z"
          "teacher1" (some "") "2024-01-03T00:00:00"
          "507f1f77bcf86cd799439013"]) ∧
    update_announcement ["teacher1"] [exDoc1] "507f1f77bcf86cd799439011"
        "T" "M" "2099-01-01T00:00:00Z" "teacher1" (some "")
        "2024-01-03T00:00:00" =
      (.ok (applyUpdate "T" "M" "2099-01-01T00:00:00Z" "teacher1"
          (some "") "2024-01-03T00:00:00" exDoc1).toView,
        [applyUpdate "T" "M" "2099-01-01T00:00:00Z" "teacher1" (some "")
          "2024-01-03T00:00:00" exDoc1]) := by
  have h := @C10_empty_start_date ["teacher1"] [exDoc1] "T" "M"
    "2099-01-01T00:00:00Z" "teacher1" "2024-01-03T00:00:00"
    "507f1f77bcf86cd799439013" "507f1f77bcf86cd799439011"
    "507f1f77bcf86cd799439011" exDoc1 (by decide) (by decide) (by decide)
    (by decide)
  exact ⟨h.2.2.1, h.2.2.2.2.1⟩
